import Mathlib

/-!
Verification of the curl-command parser and header-filtered fetch routine of
book_download.py. The tokenizer models shlex in posix mode with
whitespace_split enabled and the escape character disabled; the parser models
the while-loop over the token list; the fetcher models the try block, with the
external effects (opening the URL, opening the local file, reading the body,
launching the file explorer) supplied as an environment.
-/

namespace BookDownload

/-- The single-quote character, written by code point. -/
def squote : Char := Char.ofNat 39

/-- Whitespace characters of the shlex lexer (its default whitespace attribute). -/
def isWs (c : Char) : Bool := c = ' ' || c = '\t' || c = '\r' || c = '\n'

/-- Quote characters recognised by the shlex lexer (its default quotes attribute). -/
def isQuote (c : Char) : Bool := c = squote || c = '"'

/-- Lexer states: between tokens, inside a comment, inside a word, inside a
quoted part of a word. -/
inductive LexState where
  | ws
  | comment
  | word (tok : List Char)
  | quo (q : Char) (tok : List Char)

/-- The token loop of shlex as configured by the code: posix mode,
whitespace_split set, escape disabled, commenters at the default hash.
A hash outside quotes discards the rest of the line (instream.readline);
an unterminated quote at end of input raises ValueError, modelled as error. -/
def lexRun : List Char → LexState → Except String (List (List Char))
  | [], .ws => .ok []
  | [], .comment => .ok []
  | [], .word tok => .ok [tok]
  | [], .quo _ _ => .error "No closing quotation"
  | c :: rest, .ws =>
    if isWs c then lexRun rest .ws
    else if c = '#' then lexRun rest .comment
    else if isQuote c then lexRun rest (.quo c [])
    else lexRun rest (.word [c])
  | c :: rest, .comment =>
    if c = '\n' then lexRun rest .ws else lexRun rest .comment
  | c :: rest, .word tok =>
    if isWs c then (lexRun rest .ws).map (fun ts => tok :: ts)
    else if c = '#' then (lexRun rest .comment).map (fun ts => tok :: ts)
    else if isQuote c then lexRun rest (.quo c tok)
    else lexRun rest (.word (tok ++ [c]))
  | c :: rest, .quo q tok =>
    if c = q then lexRun rest (.word tok)
    else lexRun rest (.quo q (tok ++ [c]))

/-- parts = list(lexer): tokenize the command string. -/
def tokenize (s : String) : Except String (List (List Char)) := lexRun s.data .ws

/-- Python str.strip with one strip character: remove every leading and
trailing copy of it. -/
def stripEnds (c : Char) (l : List Char) : List Char :=
  ((l.dropWhile (fun a => a = c)).reverse.dropWhile (fun a => a = c)).reverse

/-- part.startswith applied to the http scheme text. -/
def startsHttp (l : List Char) : Bool := List.isPrefixOf ("http".data) l

/-- s.split with separator colon-space and maxsplit one: the first occurrence
of colon-space splits the list in two, otherwise no split happens. -/
def splitOnColonSpace : List Char → Option (List Char × List Char)
  | [] => none
  | ':' :: ' ' :: rest => some ([], rest)
  | c :: rest =>
    match splitOnColonSpace rest with
    | some (k, v) => some (c :: k, v)
    | none => none

abbrev Headers := List (List Char × List Char)

/-- The fixed exclusion list of header keys, compared lower-cased. -/
def excludedHeaderKeys : List (List Char) :=
  ["range".data, "if-none-match".data, "if-modified-since".data]

/-- key.lower() as used for the membership test against the exclusion list. -/
def lowerKey (k : List Char) : List Char := k.map Char.toLower

/-- Insertion with dict semantics: an existing key keeps its position and gets
the new value, a new key is appended at the end. -/
def assocSet {α β : Type} [DecidableEq α] (k : α) (v : β) : List (α × β) → List (α × β)
  | [] => [(k, v)]
  | p :: rest => if p.1 = k then (k, v) :: rest else p :: assocSet k v rest

/-- The header flag token. -/
def hFlag : List Char := "-H".data

/-- The while-loop over the token list: the state is the url seen so far
(None initially) and the headers dict. Except.error models the IndexError
raised by parts indexing when the header flag is the final token. -/
def parseLoop : List (List Char) → Option (List Char) → Headers →
    Except Unit (Option (List Char) × Headers)
  | [], url, hs => .ok (url, hs)
  | p :: rest, url, hs =>
    if startsHttp p then parseLoop rest (some (stripEnds squote p)) hs
    else if p = hFlag then
      match rest with
      | [] => .error ()
      | h :: rest2 =>
        match splitOnColonSpace (stripEnds squote h) with
        | some (k, v) =>
          if lowerKey k ∈ excludedHeaderKeys then parseLoop rest2 url hs
          else parseLoop rest2 url (assocSet k v hs)
        | none => parseLoop rest2 url hs
    else parseLoop rest url hs

/-- The value of a hex digit, if any, as read by percent-decoding. -/
def hexVal (c : Char) : Option Nat :=
  if c.isDigit then some (c.toNat - 48)
  else if 'a' ≤ c && c ≤ 'f' then some (c.toNat - 87)
  else if 'A' ≤ c && c ≤ 'F' then some (c.toNat - 55)
  else none

/-- Worker of percent-decoding; each step consumes at least one character,
so fuel equal to the length of the list is always enough. -/
def unquoteGo : Nat → List Char → List Char
  | _, [] => []
  | 0, l => l
  | fuel + 1, c :: rest =>
    if c = '%' then
      match rest with
      | h1 :: h2 :: rest2 =>
        match hexVal h1, hexVal h2 with
        | some a, some b => Char.ofNat (16 * a + b) :: unquoteGo fuel rest2
        | _, _ => '%' :: unquoteGo fuel rest
      | _ => '%' :: unquoteGo fuel rest
    else c :: unquoteGo fuel rest

/-- Percent-decoding of urllib.parse.unquote, modelled per byte: a percent
sign followed by two hex digits becomes the character of that byte value,
anything else stays literal (multi-byte utf-8 sequences decode to one
character per byte in this model; no claim depends on that difference). -/
def unquoteL (l : List Char) : List Char := unquoteGo l.length l

/-- Split off before/after the first colon, if any. -/
def splitColon : List Char → Option (List Char × List Char)
  | [] => none
  | ':' :: rest => some ([], rest)
  | c :: rest =>
    match splitColon rest with
    | some (a, b) => some (c :: a, b)
    | none => none

/-- A character allowed in a URL scheme after the leading letter. -/
def isSchemeChar (c : Char) : Bool := c.isAlpha || c.isDigit || c = '+' || c = '-' || c = '.'

/-- Remove a leading well-formed scheme and its colon, as urlsplit does. -/
def dropScheme (u : List Char) : List Char :=
  match splitColon u with
  | some (s, rest) =>
    match s with
    | [] => u
    | c0 :: cs => if c0.isAlpha && cs.all isSchemeChar then rest else u
  | none => u

/-- Take characters until one of the stop characters, returning the part
before and the rest beginning with the stop character. -/
def splitUntil (stops : List Char) : List Char → List Char × List Char
  | [] => ([], [])
  | c :: rest =>
    if c ∈ stops then ([], c :: rest)
    else
      match splitUntil stops rest with
      | (a, b) => (c :: a, b)

/-- The final path segment: the part after the last slash, as os.path.basename
computes it for slash-separated paths. -/
def basenameL (l : List Char) : List Char := (l.reverse.takeWhile (fun c => c ≠ '/')).reverse

/-- The path of urlsplit: drop scheme, netloc, fragment and query. -/
def urlPathRaw (u : List Char) : List Char :=
  let u1 := dropScheme u
  let u2 :=
    if List.isPrefixOf ("//".data) u1 then (splitUntil ['/', '?', '#'] (u1.drop 2)).2 else u1
  let u3 := (splitUntil ['#'] u2).1
  (splitUntil ['?'] u3).1

/-- Strip the params of the last path segment, as urlparse does when a
semicolon is present. -/
def splitParams (p : List Char) : List Char :=
  if ';' ∈ p then
    if '/' ∈ p then
      let seg := basenameL p
      if ';' ∈ seg then p.take (p.length - seg.length) ++ seg.takeWhile (fun c => c ≠ ';')
      else p
    else p.takeWhile (fun c => c ≠ ';')
  else p

/-- urlparse(url).path as used to derive the filename. -/
def urlPath (u : List Char) : List Char := splitParams (urlPathRaw u)

/-- Request(url) raises ValueError (unknown url type) unless the url starts
with a nonempty slash-free part followed by a colon. -/
def hasUrlType (u : List Char) : Bool :=
  match splitColon u with
  | some (s, _) => !s.isEmpty && !s.contains '/'
  | none => false

/-- The exceptions that can escape download_file_from_curl in this model. -/
inductive PyExn where
  | valueError (msg : String)
  | indexError
deriving DecidableEq

/-- An error raised inside the try block, tagged by the except clause that
catches it. -/
inductive FetchErr where
  | urlErr (reason : String)
  | osErr (msg : String)
  | valErr (msg : String)
deriving DecidableEq

/-- The log line each except clause emits. -/
def FetchErr.toLog : FetchErr → String
  | .urlErr reason => "Download Error: " ++ reason
  | .osErr msg => "File System Error: Error saving the file: " ++ msg
  | .valErr msg => "Value Error: Invalid URL or data format: " ++ msg

/-- Outcomes of the external effects: urlopen, open of the local file,
response.read, and the file-explorer launch. -/
structure Env where
  urlopen : Except FetchErr Unit
  openFile : Except FetchErr Unit
  readBody : Except FetchErr (List Nat)
  reveal : Except String Unit

/-- The working directory: filenames mapped to byte contents. -/
abbrev Fs := List (List Char × List Nat)

/-- The Request object: the url and headers as passed to the constructor. -/
structure Request where
  url : List Char
  headers : Headers
deriving DecidableEq

/-- Observable outcome of one call: log lines in order, final filesystem, the
Request that was built (if any), and an exception escaping to the caller. -/
structure RunResult where
  logs : List String
  fs : Fs
  req : Option Request
  exn : Option PyExn
deriving DecidableEq

/-- A single quote as a string, for building log messages. -/
def sq : String := String.mk [squote]

/-- Rendering of the found headers, standing in for yaml.dump: one
key-colon-space-value line per header. The sorting and quoting of yaml are not
modelled; no claim depends on this text. -/
def headersDump (hs : Headers) : String :=
  String.join (hs.map (fun kv => String.mk kv.1 ++ ": " ++ String.mk kv.2 ++ "\n"))

/-- The try block of download_file_from_curl, entered after the Request is
built: the log lines it emits and the final filesystem. Opening the local
file truncates it before the body is read; a read error therefore leaves the
empty file behind. -/
def fetchStage (url : List Char) (env : Env) (fs : Fs) : List String × Fs :=
  let l0 := ["Starting download from " ++ String.mk (unquoteL url) ++ "..."]
  match env.urlopen with
  | .error e => (l0 ++ [e.toLog], fs)
  | .ok _ =>
    let l1 := l0 ++ ["Successfully opened URL."]
    let filename := basenameL (unquoteL (urlPath url))
    if filename = [] then (l1 ++ ["Error: Could not determine filename from URL."], fs)
    else
      let l3 := l1 ++ ["Determined filename: " ++ String.mk filename,
        "Saving content to " ++ sq ++ String.mk filename ++ sq ++ "..."]
      match env.openFile with
      | .error e => (l3 ++ [e.toLog], fs)
      | .ok _ =>
        let fs1 := assocSet filename ([] : List Nat) fs
        match env.readBody with
        | .error e => (l3 ++ [e.toLog], fs1)
        | .ok bytes =>
          let fs2 := assocSet filename bytes fs1
          let l4 := l3 ++ ["Downloaded " ++ sq ++ String.mk filename ++ sq ++ " successfully.",
            "Opening file explorer to show the downloaded file..."]
          match env.reveal with
          | .error e => (l4 ++ ["Error: Could not open file explorer: " ++ e], fs2)
          | .ok _ => (l4, fs2)

/-- download_file_from_curl: tokenize, run the parse loop, report a missing
url, otherwise build the Request and run the fetch. Tokenization and the
parse loop run outside the try block, so their errors escape to the caller,
as does the ValueError of the Request constructor. -/
def download_file_from_curl (cmd : String) (env : Env) (fs : Fs) : RunResult :=
  let l0 := ["Parsing curl command..."]
  match tokenize cmd with
  | .error m => ⟨l0, fs, none, some (.valueError m)⟩
  | .ok parts =>
    match parseLoop parts none [] with
    | .error _ => ⟨l0, fs, none, some .indexError⟩
    | .ok (none, _) => ⟨l0 ++ ["Error: URL not found in curl command."], fs, none, none⟩
    | .ok (some url, headers) =>
      let l2 := l0 ++ ["Found URL: " ++ String.mk (unquoteL url)] ++
        (if headers.isEmpty then ["No headers found."]
         else ["Found headers:\n" ++ headersDump headers]) ++
        ["Creating request object..."]
      if hasUrlType url then
        let r := fetchStage url env fs
        ⟨l2 ++ r.1, r.2, some ⟨url, headers⟩, none⟩
      else
        ⟨l2, fs, none, some (.valueError ("unknown url type: " ++ String.mk url))⟩

/-- Lookup in an association list by key. -/
def assocFind {α β : Type} [DecidableEq α] (k : α) : List (α × β) → Option β
  | [] => none
  | p :: rest => if p.1 = k then some p.2 else assocFind k rest

/-- An environment in which every external effect succeeds and the body is
empty. -/
def env0 : Env := ⟨.ok (), .ok (), .ok [], .ok ()⟩

/-- A character that neither ends a token, starts a comment, nor opens a
quote. -/
def plainChar (c : Char) : Prop := isWs c = false ∧ c ≠ '#' ∧ isQuote c = false

instance instDecidablePlainChar (c : Char) : Decidable (plainChar c) :=
  inferInstanceAs (Decidable (isWs c = false ∧ c ≠ '#' ∧ isQuote c = false))

/-- A piece of a command line: a bare word or a quoted word. -/
inductive Seg where
  | plain (w : List Char)
  | quo (q : Char) (w : List Char)

/-- The concrete text of a segment: quoted words carry their quote marks. -/
def Seg.render : Seg → List Char
  | .plain w => w
  | .quo q w => q :: w ++ [q]

/-- The token a segment should produce: the quote marks are stripped. -/
def Seg.content : Seg → List Char
  | .plain w => w
  | .quo _ w => w

/-- Well-formedness: a bare word is nonempty and free of whitespace, hash and
quote characters; a quoted word uses a real quote character and does not
contain it (backslashes, spaces, hashes and the other quote are all allowed
inside and stay verbatim). -/
def Seg.Good : Seg → Prop
  | .plain w => w ≠ [] ∧ ∀ c ∈ w, plainChar c
  | .quo q w => isQuote q = true ∧ ∀ c ∈ w, c ≠ q

instance Seg.instDecidableGood : (s : Seg) → Decidable s.Good
  | .plain w => inferInstanceAs (Decidable (w ≠ [] ∧ ∀ c ∈ w, plainChar c))
  | .quo q w => inferInstanceAs (Decidable (isQuote q = true ∧ ∀ c ∈ w, c ≠ q))

/-- Join word texts with single spaces. -/
def joinSp : List (List Char) → List Char
  | [] => []
  | [x] => x
  | x :: y :: rest => x ++ ' ' :: joinSp (y :: rest)

/-- A command with two url-like tokens. -/
def cmdTwoUrls : String := "curl http://a http://b"

/-- A command whose final token is the header flag. -/
def cmdTrailingH : String := "curl -H"

/-- A command with an unbalanced single quote. -/
def cmdUnbalanced : String := String.mk ("curl ".data ++ squote :: "http://a".data)

/-- A command whose only token contains a hash. -/
def cmdHash : String := "http://x#y"

/-- A command with no url-like token. -/
def cmdNoUrl : String := "-H"

/-- A command with no url-like token that the parse loop completes on. -/
def cmdCompressed : String := "curl --compressed"

/-- A command with a percent-encoded url and one quoted header. -/
def cmdEncoded : String :=
  String.mk ("curl http://h/a%20b.pdf -H ".data ++ squote :: "accept: x".data ++ [squote])

/-- Concrete segments: a bare word, a single-quoted word with a space, and a
double-quoted word holding a backslash, a single quote and a hash verbatim. -/
def segsW : List Seg :=
  [Seg.plain ("curl".data),
   Seg.quo squote ("http://h/a b".data),
   Seg.quo '"' ("x".data ++ '\\' :: squote :: "#y".data)]

lemma mem_assocSet {α β : Type} [DecidableEq α] (k : α) (v : β) (m : List (α × β))
    (kv : α × β) (h : kv ∈ assocSet k v m) : kv = (k, v) ∨ kv ∈ m := by
  induction m with
  | nil => simpa [assocSet] using h
  | cons p rest ih =>
    by_cases hp : p.1 = k
    · simp only [assocSet, if_pos hp, List.mem_cons] at h
      rcases h with h | h
      · exact Or.inl h
      · exact Or.inr (List.mem_cons_of_mem p h)
    · simp only [assocSet, if_neg hp, List.mem_cons] at h
      rcases h with h | h
      · exact Or.inr (by simp [h])
      · rcases ih h with h2 | h2
        · exact Or.inl h2
        · exact Or.inr (List.mem_cons_of_mem p h2)

lemma assocFind_assocSet_self {α β : Type} [DecidableEq α] (k : α) (v : β)
    (m : List (α × β)) : assocFind k (assocSet k v m) = some v := by
  induction m with
  | nil => simp [assocSet, assocFind]
  | cons p rest ih =>
    by_cases hp : p.1 = k
    · simp [assocSet, assocFind, hp]
    · simp [assocSet, assocFind, hp, ih]

lemma assocFind_assocSet_ne {α β : Type} [DecidableEq α] (k name : α) (v : β)
    (m : List (α × β)) (h : name ≠ k) :
    assocFind name (assocSet k v m) = assocFind name m := by
  induction m with
  | nil => simp [assocSet, assocFind, Ne.symm h]
  | cons p rest ih =>
    by_cases hp : p.1 = k
    · have hpn : p.1 ≠ name := by rw [hp]; exact Ne.symm h
      simp [assocSet, assocFind, hp, hpn, Ne.symm h]
    · by_cases hn : p.1 = name
      · simp [assocSet, assocFind, hp, hn, h]
      · simp [assocSet, assocFind, hp, hn, ih]

lemma parseLoop_cons_http (p : List Char) (rest : List (List Char))
    (url : Option (List Char)) (hs : Headers) (hp : startsHttp p = true) :
    parseLoop (p :: rest) url hs = parseLoop rest (some (stripEnds squote p)) hs := by
  rw [parseLoop.eq_def]
  simp [hp]

lemma parseLoop_cons_other (p : List Char) (rest : List (List Char))
    (url : Option (List Char)) (hs : Headers) (hp : ¬startsHttp p = true)
    (hH : ¬p = hFlag) : parseLoop (p :: rest) url hs = parseLoop rest url hs := by
  rw [parseLoop.eq_def]
  simp [hp, hH]

lemma parseLoop_headers_sound :
    ∀ (parts : List (List Char)) (url0 : Option (List Char)) (hs0 : Headers)
      (r : Option (List Char) × Headers), parseLoop parts url0 hs0 = .ok r →
      (∀ kv ∈ hs0, lowerKey kv.1 ∉ excludedHeaderKeys) →
      ∀ kv ∈ r.2, lowerKey kv.1 ∉ excludedHeaderKeys := by
  intro parts url0 hs0
  induction parts, url0, hs0 using parseLoop.induct with
  | case1 url hs =>
    intro r hok hinv
    simp only [parseLoop, Except.ok.injEq] at hok
    subst hok
    exact hinv
  | case2 p rest url hs hp ih =>
    intro r hok hinv
    rw [parseLoop_cons_http p rest url hs hp] at hok
    exact ih r hok hinv
  | case3 url hs hH =>
    intro r hok hinv
    simp [parseLoop, hH] at hok
  | case4 url hs ht rest2 k v hsplit hexcl hH ih =>
    intro r hok hinv
    simp only [parseLoop, if_neg hH, if_pos rfl, hsplit, if_pos hexcl] at hok
    exact ih r hok hinv
  | case5 url hs ht rest2 k v hsplit hexcl hH ih =>
    intro r hok hinv
    simp only [parseLoop, if_neg hH, if_pos rfl, hsplit, if_neg hexcl] at hok
    refine ih r hok ?_
    intro kv hkv
    rcases mem_assocSet k v hs kv hkv with h2 | h2
    · rw [h2]
      exact hexcl
    · exact hinv kv h2
  | case6 url hs ht rest2 hsplit hH ih =>
    intro r hok hinv
    simp only [parseLoop, if_neg hH, if_pos rfl, hsplit] at hok
    exact ih r hok hinv
  | case7 p rest url hs hp hH ih =>
    intro r hok hinv
    rw [parseLoop_cons_other p rest url hs hp hH] at hok
    exact ih r hok hinv

lemma parseLoop_append_url :
    ∀ (parts : List (List Char)) (url0 : Option (List Char)) (hs0 : Headers)
      (r : Option (List Char) × Headers) (u : List Char),
      parseLoop parts url0 hs0 = .ok r → startsHttp u = true →
      parseLoop (parts ++ [u]) url0 hs0 = .ok (some (stripEnds squote u), r.2) := by
  intro parts url0 hs0
  induction parts, url0, hs0 using parseLoop.induct with
  | case1 url hs =>
    intro r u hok hu
    simp only [parseLoop, Except.ok.injEq] at hok
    subst hok
    simp [parseLoop, hu]
  | case2 p rest url hs hp ih =>
    intro r u hok hu
    rw [parseLoop_cons_http p rest url hs hp] at hok
    rw [List.cons_append, parseLoop_cons_http p (rest ++ [u]) url hs hp]
    exact ih r u hok hu
  | case3 url hs hH =>
    intro r u hok hu
    simp [parseLoop, hH] at hok
  | case4 url hs ht rest2 k v hsplit hexcl hH ih =>
    intro r u hok hu
    simp only [parseLoop, if_neg hH, if_pos rfl, hsplit, if_pos hexcl] at hok
    rw [List.cons_append, List.cons_append]
    simp only [parseLoop, if_neg hH, if_pos rfl, hsplit, if_pos hexcl]
    exact ih r u hok hu
  | case5 url hs ht rest2 k v hsplit hexcl hH ih =>
    intro r u hok hu
    simp only [parseLoop, if_neg hH, if_pos rfl, hsplit, if_neg hexcl] at hok
    rw [List.cons_append, List.cons_append]
    simp only [parseLoop, if_neg hH, if_pos rfl, hsplit, if_neg hexcl]
    exact ih r u hok hu
  | case6 url hs ht rest2 hsplit hH ih =>
    intro r u hok hu
    simp only [parseLoop, if_neg hH, if_pos rfl, hsplit] at hok
    rw [List.cons_append, List.cons_append]
    simp only [parseLoop, if_neg hH, if_pos rfl, hsplit]
    exact ih r u hok hu
  | case7 p rest url hs hp hH ih =>
    intro r u hok hu
    rw [parseLoop_cons_other p rest url hs hp hH] at hok
    rw [List.cons_append, parseLoop_cons_other p (rest ++ [u]) url hs hp hH]
    exact ih r u hok hu

lemma parseLoop_url_of_no_http :
    ∀ (parts : List (List Char)) (url0 : Option (List Char)) (hs0 : Headers)
      (r : Option (List Char) × Headers), parseLoop parts url0 hs0 = .ok r →
      (∀ t ∈ parts, startsHttp t = false) → r.1 = url0 := by
  intro parts url0 hs0
  induction parts, url0, hs0 using parseLoop.induct with
  | case1 url hs =>
    intro r hok hno
    simp only [parseLoop, Except.ok.injEq] at hok
    subst hok
    rfl
  | case2 p rest url hs hp ih =>
    intro r hok hno
    have := hno p (List.mem_cons_self p rest)
    rw [hp] at this
    cases this
  | case3 url hs hH =>
    intro r hok hno
    simp [parseLoop, hH] at hok
  | case4 url hs ht rest2 k v hsplit hexcl hH ih =>
    intro r hok hno
    simp only [parseLoop, if_neg hH, if_pos rfl, hsplit, if_pos hexcl] at hok
    exact ih r hok (fun t htm => hno t (by simp [htm]))
  | case5 url hs ht rest2 k v hsplit hexcl hH ih =>
    intro r hok hno
    simp only [parseLoop, if_neg hH, if_pos rfl, hsplit, if_neg hexcl] at hok
    exact ih r hok (fun t htm => hno t (by simp [htm]))
  | case6 url hs ht rest2 hsplit hH ih =>
    intro r hok hno
    simp only [parseLoop, if_neg hH, if_pos rfl, hsplit] at hok
    exact ih r hok (fun t htm => hno t (by simp [htm]))
  | case7 p rest url hs hp hH ih =>
    intro r hok hno
    rw [parseLoop_cons_other p rest url hs hp hH] at hok
    exact ih r hok (fun t htm => hno t (by simp [htm]))

/-- Claim C1, counterexample: in a command with two url-like tokens the code
keeps the second one, not the first, because each qualifying token overwrites
the url variable. -/
theorem claim1_counterexample :
    tokenize cmdTwoUrls = .ok ["curl".data, "http://a".data, "http://b".data] ∧
    parseLoop ["curl".data, "http://a".data, "http://b".data] none [] =
      .ok (some ("http://b".data), []) ∧
    startsHttp ("http://a".data) = true ∧ ("http://b".data) ≠ ("http://a".data) := by
  refine ⟨rfl, rfl, rfl, ?_⟩
  decide

/-- Claim C1, amended: the last qualifying token wins. Appending a token whose
text begins with http to any command whose scan completes makes that token the
url, whatever url-like tokens came before; the headers are unchanged. -/
theorem claim1_last_url_wins (parts : List (List Char)) (url0 : Option (List Char))
    (hs0 : Headers) (r : Option (List Char) × Headers) (u : List Char)
    (hok : parseLoop parts url0 hs0 = .ok r) (hu : startsHttp u = true) :
    parseLoop (parts ++ [u]) url0 hs0 = .ok (some (stripEnds squote u), r.2) :=
  parseLoop_append_url parts url0 hs0 r u hok hu

/-- Witness for claim C1: concrete instance of the amended statement. -/
theorem claim1_last_url_wins_witness :
    parseLoop (["curl".data, "http://a".data] ++ ["http://b".data]) none [] =
      .ok (some (stripEnds squote ("http://b".data)), []) :=
  claim1_last_url_wins ["curl".data, "http://a".data] none []
    (some ("http://a".data), []) ("http://b".data) (by rfl) (by rfl)

/-- Claim C2: the code does not drop a header flag that is the final token;
the indexing of the token after the flag raises IndexError, which escapes to
the caller, so the parse does fail. -/
theorem claim2_trailing_header_flag_raises :
    tokenize cmdTrailingH = .ok ["curl".data, hFlag] ∧
    download_file_from_curl cmdTrailingH env0 [] =
      ⟨["Parsing curl command..."], [], none, some .indexError⟩ :=
  ⟨rfl, rfl⟩

/-- Claim C3: tokenization runs outside the try block, so the ValueError
raised on an unbalanced quote escapes to the caller instead of being turned
into a log message. -/
theorem claim3_tokenize_error_escapes :
    download_file_from_curl cmdUnbalanced env0 [] =
      ⟨["Parsing curl command..."], [], none, some (.valueError "No closing quotation")⟩ :=
  rfl

/-- Claim C4: every header in the parsed map has a lower-cased key outside the
exclusion list, and a well-formed header whose lower-cased key is not excluded
is inserted with its key exactly as captured. -/
theorem claim4_exclusion_filter :
    (∀ (parts : List (List Char)) (r : Option (List Char) × Headers),
      parseLoop parts none [] = .ok r →
      ∀ kv ∈ r.2, lowerKey kv.1 ∉ excludedHeaderKeys) ∧
    (∀ (t : List Char) (rest : List (List Char)) (url0 : Option (List Char))
      (hs0 : Headers) (k v : List Char),
      splitOnColonSpace (stripEnds squote t) = some (k, v) →
      lowerKey k ∉ excludedHeaderKeys →
      parseLoop (hFlag :: t :: rest) url0 hs0 = parseLoop rest url0 (assocSet k v hs0)) := by
  constructor
  · intro parts r hok
    exact parseLoop_headers_sound parts none [] r hok (by simp)
  · intro t rest url0 hs0 k v hsplit hexcl
    have hH : ¬ startsHttp hFlag = true := by decide
    rw [parseLoop.eq_def]
    simp [hH, hsplit, hexcl]

/-- Witness for claim C4: a range header is parsed away while an accept header
is inserted with its case kept. -/
theorem claim4_exclusion_filter_witness :
    (∀ kv ∈ ((none : Option (List Char)), [("Accept".data, "x".data)]).2,
      lowerKey kv.1 ∉ excludedHeaderKeys) ∧
    parseLoop [hFlag, "Accept: x".data] none [] =
      parseLoop [] none (assocSet ("Accept".data) ("x".data) []) :=
  ⟨claim4_exclusion_filter.1 [hFlag, "range: bytes=0-10".data, hFlag, "Accept: x".data]
      ((none : Option (List Char)), [("Accept".data, "x".data)]) (by rfl),
    claim4_exclusion_filter.2 ("Accept: x".data) [] none [] ("Accept".data) ("x".data)
      (by rfl) (by decide)⟩

/-- Claim C6, counterexample: a command whose only token is the header flag
contains no url-like token, yet the code raises IndexError instead of
reporting the no-url error. -/
theorem claim6_counterexample :
    tokenize cmdNoUrl = .ok [hFlag] ∧ startsHttp hFlag = false ∧
    download_file_from_curl cmdNoUrl env0 [] =
      ⟨["Parsing curl command..."], [], none, some .indexError⟩ ∧
    ("Error: URL not found in curl command.") ∉
      (download_file_from_curl cmdNoUrl env0 []).logs := by
  refine ⟨rfl, rfl, rfl, ?_⟩
  decide

/-- Claim C6, amended: when the command has no url-like token and the token
scan completes without raising, the code logs the no-url error and returns:
no request is built, nothing is fetched, and the filesystem is untouched. -/
theorem claim6_no_url_reports (cmd : String) (env : Env) (fs : Fs)
    (parts : List (List Char)) (r : Option (List Char) × Headers)
    (htok : tokenize cmd = .ok parts) (hok : parseLoop parts none [] = .ok r)
    (hno : ∀ t ∈ parts, startsHttp t = false) :
    download_file_from_curl cmd env fs =
      ⟨["Parsing curl command...", "Error: URL not found in curl command."], fs, none, none⟩ := by
  have hr1 : r.1 = none := parseLoop_url_of_no_http parts none [] r hok hno
  obtain ⟨r1, r2⟩ := r
  simp only at hr1
  subst hr1
  simp [download_file_from_curl, htok, hok]

/-- Witness for claim C6: a command with only unrelated flags reports the
missing url. -/
theorem claim6_no_url_reports_witness :
    download_file_from_curl cmdCompressed env0 [] =
      ⟨["Parsing curl command...", "Error: URL not found in curl command."], [], none, none⟩ :=
  claim6_no_url_reports cmdCompressed env0 [] ["curl".data, "--compressed".data]
    (none, []) (by rfl) (by rfl) (by decide)

lemma lexRun_word_plain :
    ∀ (w rest tok : List Char), (∀ c ∈ w, plainChar c) →
      lexRun (w ++ rest) (.word tok) = lexRun rest (.word (tok ++ w)) := by
  intro w
  induction w with
  | nil => intro rest tok h; simp
  | cons c w ih =>
    intro rest tok h
    have hc := h c (List.mem_cons_self c w)
    rw [List.cons_append, lexRun.eq_def]
    simp only [hc.1, hc.2.1, hc.2.2, Bool.false_eq_true, if_false, if_neg hc.2.1]
    rw [ih rest (tok ++ [c]) (fun d hd => h d (List.mem_cons_of_mem c hd))]
    simp

lemma lexRun_quo_append :
    ∀ (w : List Char) (q : Char) (rest tok : List Char), (∀ c ∈ w, c ≠ q) →
      lexRun (w ++ q :: rest) (.quo q tok) = lexRun rest (.word (tok ++ w)) := by
  intro w
  induction w with
  | nil =>
    intro q rest tok h
    rw [List.nil_append, lexRun.eq_def]
    simp
  | cons c w ih =>
    intro q rest tok h
    have hc := h c (List.mem_cons_self c w)
    rw [List.cons_append, lexRun.eq_def]
    simp only [if_neg hc]
    rw [ih q rest (tok ++ [c]) (fun d hd => h d (List.mem_cons_of_mem c hd))]
    simp

lemma lexRun_seg (s : Seg) (hsg : s.Good) (rest : List Char) :
    lexRun (s.render ++ rest) .ws = lexRun rest (.word s.content) := by
  cases s with
  | plain w =>
    obtain ⟨hne, hall⟩ := hsg
    cases w with
    | nil => exact absurd rfl hne
    | cons c w2 =>
      have hc := hall c (List.mem_cons_self c w2)
      show lexRun ((c :: w2) ++ rest) .ws = lexRun rest (.word (c :: w2))
      rw [List.cons_append, lexRun.eq_def]
      simp only [hc.1, hc.2.1, hc.2.2, Bool.false_eq_true, if_false, if_neg hc.2.1]
      rw [lexRun_word_plain w2 rest [c] (fun d hd => hall d (List.mem_cons_of_mem c hd))]
      rfl
  | quo q w =>
    obtain ⟨hq, hall⟩ := hsg
    have hq2 : q = squote ∨ q = '"' := by
      have h2 := hq
      simp [isQuote] at h2
      exact h2
    have hws : isWs q = false := by rcases hq2 with h | h <;> subst h <;> decide
    have hhash : q ≠ '#' := by rcases hq2 with h | h <;> subst h <;> decide
    show lexRun ((q :: (w ++ [q])) ++ rest) .ws = lexRun rest (.word w)
    rw [List.cons_append, lexRun.eq_def]
    simp only [hws, hhash, hq, Bool.false_eq_true, if_false, if_neg hhash, if_true]
    rw [List.append_assoc, List.singleton_append]
    rw [lexRun_quo_append w q rest [] hall]
    rfl

/-- Claim C5, counterexample: the input has no whitespace and no quote
characters, so splitting on whitespace would keep it as one whole token, yet
the code truncates the token at the hash and discards the rest of the line
(shlex comment handling is on). -/
theorem claim5_counterexample :
    tokenize cmdHash = .ok [("http://x".data)] ∧
    (∀ c ∈ cmdHash.data, isWs c = false ∧ isQuote c = false) ∧
    ("http://x".data) ≠ cmdHash.data := by
  refine ⟨rfl, by decide, by decide⟩

/-- Claim C5, amended: except for unquoted hash characters, which start a
comment that discards the rest of the line, tokenization splits on whitespace,
strips the quote marks of quoted parts, and keeps the quoted contents verbatim
with no escape interpretation: any space-separated sequence of hash-free bare
words and quoted words (whose contents may hold backslashes, the other quote,
hashes and spaces) tokenizes to exactly its words with quotes stripped. -/
theorem claim5_tokenize_segments :
    ∀ (segs : List Seg), (∀ s ∈ segs, s.Good) →
      lexRun (joinSp (segs.map Seg.render)) .ws = .ok (segs.map Seg.content) := by
  intro segs
  induction segs with
  | nil => intro _; rfl
  | cons s rest ih =>
    intro h
    have hsg := h s (List.mem_cons_self s rest)
    have hrest := fun t ht => h t (List.mem_cons_of_mem s ht)
    cases rest with
    | nil =>
      have hj : joinSp ([s].map Seg.render) = s.render ++ [] := by simp [joinSp]
      rw [hj, lexRun_seg s hsg []]
      rfl
    | cons s2 rest2 =>
      have hj : joinSp ((s :: s2 :: rest2).map Seg.render) =
          s.render ++ ' ' :: joinSp ((s2 :: rest2).map Seg.render) := by
        simp [joinSp]
      rw [hj, lexRun_seg s hsg, lexRun.eq_def]
      simp only [show isWs ' ' = true by decide, if_true]
      rw [ih hrest]
      rfl

/-- Witness for claim C5: the concrete segments tokenize to their contents,
with the backslash, inner quote and hash kept verbatim. -/
theorem claim5_tokenize_segments_witness :
    (∀ s ∈ segsW, Seg.Good s) ∧
    lexRun (joinSp (segsW.map Seg.render)) .ws = .ok (segsW.map Seg.content) :=
  ⟨by decide, claim5_tokenize_segments segsW (by decide)⟩

lemma fetchStage_starting_mem (url : List Char) (env : Env) (fs : Fs) :
    ("Starting download from " ++ String.mk (unquoteL url) ++ "...") ∈
      (fetchStage url env fs).1 := by
  obtain ⟨o, f, b, rv⟩ := env
  by_cases hfn : basenameL (unquoteL (urlPath url)) = [] <;>
    cases o <;> cases f <;> cases b <;> cases rv <;> simp [fetchStage, hfn]

/-- Claim C7: with the connection open, an empty final segment of the
percent-decoded path makes the code log the no-filename error and leave the
filesystem untouched, while a nonempty final segment is logged as the
determined filename and is the only name the filesystem can change at. -/
theorem claim7_filename_from_path (url : List Char) (env : Env) (fs : Fs)
    (hopen : env.urlopen = .ok ()) :
    (basenameL (unquoteL (urlPath url)) = [] →
      fetchStage url env fs =
        (["Starting download from " ++ String.mk (unquoteL url) ++ "...",
          "Successfully opened URL.",
          "Error: Could not determine filename from URL."], fs)) ∧
    (basenameL (unquoteL (urlPath url)) ≠ [] →
      ("Determined filename: " ++ String.mk (basenameL (unquoteL (urlPath url)))) ∈
        (fetchStage url env fs).1 ∧
      ∀ name, name ≠ basenameL (unquoteL (urlPath url)) →
        assocFind name (fetchStage url env fs).2 = assocFind name fs) := by
  obtain ⟨o, f, b, rv⟩ := env
  simp only at hopen
  subst hopen
  constructor
  · intro hfn
    simp [fetchStage, hfn]
  · intro hfn
    constructor
    · cases f <;> cases b <;> cases rv <;> simp [fetchStage, hfn]
    · intro name hname
      cases f <;> cases b <;> cases rv <;>
        simp [fetchStage, hfn, assocFind_assocSet_ne _ _ _ _ hname]

/-- Witness for claim C7: a url with a percent-encoded segment yields that
decoded segment as filename, and a url with an empty path yields the
no-filename error with the filesystem unchanged. -/
theorem claim7_filename_from_path_witness :
    ("Determined filename: " ++
        String.mk (basenameL (unquoteL (urlPath ("http://h/f%20x.pdf".data))))) ∈
      (fetchStage ("http://h/f%20x.pdf".data) env0 []).1 ∧
    fetchStage ("https://example.com".data) env0 [] =
      (["Starting download from " ++ String.mk (unquoteL ("https://example.com".data)) ++ "...",
        "Successfully opened URL.",
        "Error: Could not determine filename from URL."], []) :=
  ⟨((claim7_filename_from_path ("http://h/f%20x.pdf".data) env0 [] rfl).2 (by decide)).1,
    (claim7_filename_from_path ("https://example.com".data) env0 [] rfl).1 (by decide)⟩

/-- Claim C8: the Request is built from the original, still percent-encoded
url together with the parsed headers, while the percent-decoded form of the
url appears in the display log lines. -/
theorem claim8_request_keeps_encoding (cmd : String) (env : Env) (fs : Fs)
    (parts : List (List Char)) (url : List Char) (hs : Headers)
    (htok : tokenize cmd = .ok parts)
    (hok : parseLoop parts none [] = .ok (some url, hs))
    (hty : hasUrlType url = true) :
    (download_file_from_curl cmd env fs).req = some ⟨url, hs⟩ ∧
    ("Found URL: " ++ String.mk (unquoteL url)) ∈ (download_file_from_curl cmd env fs).logs ∧
    ("Starting download from " ++ String.mk (unquoteL url) ++ "...") ∈
      (download_file_from_curl cmd env fs).logs := by
  have hmem := fetchStage_starting_mem url env fs
  simp [download_file_from_curl, htok, hok, hty, hmem]

/-- Witness for claim C8: the encoded url is kept in the Request while the
log shows the decoded form. -/
theorem claim8_request_keeps_encoding_witness :
    (download_file_from_curl cmdEncoded env0 []).req =
      some ⟨("http://h/a%20b.pdf".data), [("accept".data, "x".data)]⟩ ∧
    ("Found URL: " ++ String.mk (unquoteL ("http://h/a%20b.pdf".data))) ∈
      (download_file_from_curl cmdEncoded env0 []).logs ∧
    ("Starting download from " ++ String.mk (unquoteL ("http://h/a%20b.pdf".data)) ++ "...") ∈
      (download_file_from_curl cmdEncoded env0 []).logs :=
  claim8_request_keeps_encoding cmdEncoded env0 []
    ["curl".data, "http://h/a%20b.pdf".data, hFlag, "accept: x".data]
    ("http://h/a%20b.pdf".data) [("accept".data, "x".data)] (by rfl) (by rfl) (by rfl)

/-- Claim C9: when everything up to the write succeeds and only the
file-explorer launch fails, the run produces exactly the logs of the fully
successful run plus one advisory line, the filesystem is the same as in the
successful run, and the success log line is still present. -/
theorem claim9_reveal_failure_is_advisory (url : List Char) (fs : Fs) (bytes : List Nat)
    (msg : String) (hfn : basenameL (unquoteL (urlPath url)) ≠ []) :
    fetchStage url ⟨.ok (), .ok (), .ok bytes, .error msg⟩ fs =
      ((fetchStage url ⟨.ok (), .ok (), .ok bytes, .ok ()⟩ fs).1 ++
        ["Error: Could not open file explorer: " ++ msg],
       (fetchStage url ⟨.ok (), .ok (), .ok bytes, .ok ()⟩ fs).2) ∧
    ("Downloaded " ++ sq ++ String.mk (basenameL (unquoteL (urlPath url))) ++ sq ++
        " successfully.") ∈
      (fetchStage url ⟨.ok (), .ok (), .ok bytes, .error msg⟩ fs).1 := by
  constructor
  · simp [fetchStage, hfn]
  · simp [fetchStage, hfn]

/-- Witness for claim C9: concrete failing reveal after a successful write. -/
theorem claim9_reveal_failure_is_advisory_witness :
    fetchStage ("http://h/f.pdf".data) ⟨.ok (), .ok (), .ok [1, 2, 3], .error "boom"⟩ [] =
      ((fetchStage ("http://h/f.pdf".data) ⟨.ok (), .ok (), .ok [1, 2, 3], .ok ()⟩ []).1 ++
        ["Error: Could not open file explorer: " ++ "boom"],
       (fetchStage ("http://h/f.pdf".data) ⟨.ok (), .ok (), .ok [1, 2, 3], .ok ()⟩ []).2) ∧
    ("Downloaded " ++ sq ++ String.mk (basenameL (unquoteL (urlPath ("http://h/f.pdf".data)))) ++
        sq ++ " successfully.") ∈
      (fetchStage ("http://h/f.pdf".data) ⟨.ok (), .ok (), .ok [1, 2, 3], .error "boom"⟩ []).1 :=
  claim9_reveal_failure_is_advisory ("http://h/f.pdf".data) [] [1, 2, 3] "boom" (by decide)

/-- Claim C10: when the body read fails after the local file was opened for
writing, the error is logged and the file with the derived name exists with
empty content, whatever content the filesystem held under that name before. -/
theorem claim10_failed_read_truncates (url : List Char) (fs : Fs) (e : FetchErr)
    (rv : Except String Unit) (hfn : basenameL (unquoteL (urlPath url)) ≠ []) :
    assocFind (basenameL (unquoteL (urlPath url)))
      (fetchStage url ⟨.ok (), .ok (), .error e, rv⟩ fs).2 = some [] ∧
    e.toLog ∈ (fetchStage url ⟨.ok (), .ok (), .error e, rv⟩ fs).1 := by
  constructor
  · simp [fetchStage, hfn, assocFind_assocSet_self]
  · simp [fetchStage, hfn]

/-- Witness for claim C10: a pre-existing file of the derived name is left
empty by the failed read. -/
theorem claim10_failed_read_truncates_witness :
    assocFind (basenameL (unquoteL (urlPath ("http://h/f.pdf".data))))
      (fetchStage ("http://h/f.pdf".data)
        ⟨.ok (), .ok (), .error (.urlErr "connection reset"), .ok ()⟩
        [("f.pdf".data, [7, 7, 7])]).2 = some [] ∧
    (FetchErr.urlErr "connection reset").toLog ∈
      (fetchStage ("http://h/f.pdf".data)
        ⟨.ok (), .ok (), .error (.urlErr "connection reset"), .ok ()⟩
        [("f.pdf".data, [7, 7, 7])]).1 :=
  claim10_failed_read_truncates ("http://h/f.pdf".data) [("f.pdf".data, [7, 7, 7])]
    (.urlErr "connection reset") (.ok ()) (by decide)

end BookDownload
